import Mathlib

/-!
Verification of the `test-tag` attribute-macro crate.

The development shallowly embeds the relevant parts of `src/lib.rs` (the
`#[test_tag::tag]` procedural macro) and of `tests/common.rs` (the test
harness's JSON-line output parser) as executable Lean definitions, and
proves the specification's claims about them.

Modelling conventions:
* `proc_macro` token streams that hold a tag list are modelled as
  `List Tok`, where `Tok` covers the token shapes that can actually occur
  in such a position: identifiers, commas, `=` signs, string literals and
  (empty) brace groups (the latter arises from
  `quote_spanned!(span => {})` in `parse_fn_attrs`).
* `syn::Path` keeps only the fields inspected by the code: the presence of
  a leading path-root colon and the list of segment identifiers
  (`PathArguments` are never populated on attribute paths here).
* `syn::Meta` / `syn::Attribute` are embedded structurally; the value of a
  name-value attribute is kept as an opaque string.
* The annotated function (`syn::ItemFn`) keeps its attribute list, its
  visibility tokens (opaque string), its signature (name plus an opaque
  remainder: asyncness, generics, parameters, return type — all preserved
  verbatim by the macro) and its opaque body block.
* The token stream produced by the `quote!` invocations in `try_tag` is
  modelled by the `Item` tree, whose constructors carry exactly the
  variable parts of the corresponding `quote!` templates.
* Source spans are not modelled; `syn::Error` is reduced to its message.
-/

namespace TestTag

/-- A token inside a tag-list position of an attribute argument stream. -/
inductive Tok where
  /-- An identifier token. -/
  | ident (s : String)
  /-- A `,` punctuation token. -/
  | comma
  /-- An `=` punctuation token (as in `tag1 = "foobar"`). -/
  | eq
  /-- A string literal token. -/
  | strLit (s : String)
  /-- An empty brace group `\x7b\x7d`, as produced by
  `quote_spanned!(span => \x7b\x7d)` for a bare `#[test_tag::tag]`. -/
  | braces
deriving DecidableEq

/-- `syn::Error`, reduced to its message (spans are not modelled). -/
structure Error where
  /-- The diagnostic text. -/
  msg : String
deriving DecidableEq

/-- `syn::Path`: leading `::` flag plus segment identifiers. -/
structure Path where
  /-- Whether the path starts with a path-root `::`. -/
  leading_colon : Bool
  /-- The identifiers of the path segments. -/
  segments : List String
deriving DecidableEq

/-- `syn::Meta`: the three shapes an attribute's meta item can take. -/
inductive Meta where
  /-- A bare path, e.g. `#[test]`. -/
  | path (p : Path)
  /-- A path followed by a parenthesised token list, e.g. `#[tag(a, b)]`. -/
  | list (p : Path) (tokens : List Tok)
  /-- A name-value pair, e.g. `#[key = "value"]`; the value is opaque. -/
  | nameValue (p : Path) (value : String)
deriving DecidableEq

/-- `syn::Attribute`, reduced to its meta item. -/
structure Attribute where
  /-- The attribute's meta item. -/
  meta : Meta
deriving DecidableEq

/-- The signature of the annotated function: its name plus an opaque
remainder (asyncness, generics, parameters, return type), which the macro
preserves verbatim. -/
structure Sig where
  /-- The function's name. -/
  ident : String
  /-- Everything else in the signature, preserved verbatim. -/
  rest : String
deriving DecidableEq

/-- `syn::ItemFn`: the annotated function. -/
structure ItemFn where
  /-- The attributes on the function. -/
  attrs : List Attribute
  /-- The visibility tokens, opaque (e.g. `pub`). -/
  vis : String
  /-- The signature. -/
  sig : Sig
  /-- The body block, opaque. -/
  block : String
deriving DecidableEq

/-- One item of the token stream emitted by `try_tag`'s `quote!` calls. -/
inductive Item where
  /-- `#(#attrs)* pub #sig \x7b #block \x7d` — the function, with the
  hard-coded `pub` visibility the macro gives it. -/
  | fn (attrs : List Attribute) (sig : Sig) (block : String)
  /-- `#(#[attr])* pub mod #name \x7b #body \x7d`; `attrs` holds the raw
  text of literal attributes from the template (e.g. `doc(hidden)`). -/
  | pubMod (attrs : List String) (name : String) (body : List Item)
  /-- `use ::core::prelude::v1::*;` -/
  | usePrelude
  /-- `use super::*;` -/
  | useSuperGlob
  /-- `#[allow(unused_imports)] #vis use #name::#imp::test as #name;` —
  the alias re-exporting the nested test under the original name. -/
  | useAlias (vis : String) (imp : Option (List String)) (name : String)

/-- The macro's overall output: either the rewritten items or a
`compile_error!` marker (from `Error::into_compile_error`). -/
inductive Output where
  /-- Successful expansion. -/
  | items (items : List Item)
  /-- A `compile_error!("msg")` marker replacing the item. -/
  | compileError (msg : String)

/-- `Punctuated::<Ident, Token![,]>::parse_terminated`: zero or more
identifiers separated by commas, optional trailing comma. A non-identifier
token in element position yields syn's "expected identifier" error; a
non-comma token after an element yields "expected `,`". -/
def parse_terminated : List Tok → Except Error (List String)
  | [] => .ok []
  | .ident s :: rest =>
    match rest with
    | [] => .ok [s]
    | .comma :: rest2 =>
      match parse_terminated rest2 with
      | .ok tl => .ok (s :: tl)
      | .error e => .error e
    | _ => .error ⟨"expected `,`"⟩
  | _ => .error ⟨"expected identifier"⟩

/-- `parse_tags` from `src/lib.rs`: parse a comma-separated tag list and
report an error if the parsed list is empty. -/
def parse_tags (attrs : List Tok) : Except Error (List String) := do
  let tags ← parse_terminated attrs
  if !tags.isEmpty then
    .ok tags
  else
    .error ⟨"at least one tag is required: #[test_tag::tag(<tags...>)]"⟩

/-- `is_test_tag_attr` from `src/lib.rs`: does the attribute look like
`#[tag]`/`#[tag(...)]` or `#[test_tag::tag]`/`#[test_tag::tag(...)]`
(optionally with a leading `::` in the two-segment form)? A name-value
meta item is never a candidate (the `_ => return false` arm). -/
def is_test_tag_attr (attr : Attribute) : Bool :=
  let path? : Option Path :=
    match attr.meta with
    | .path p => some p
    | .list p _ => some p
    | _ => none
  match path? with
  | none => false
  | some path =>
    let segments := ["test_tag", "tag"]
    if path.leading_colon = false && path.segments.length == 1
        && path.segments.getD 0 "" == "tag" then
      true
    else if path.segments.length != segments.length then
      false
    else
      (path.segments.zip segments).all fun sp => sp.1 == sp.2

/-- `parse_fn_attrs` from `src/lib.rs`: split the function's attributes
into tags collected from `tag`-shaped attributes (in declaration order)
and the remaining pass-through attributes (in declaration order). A bare
`tag` path contributes the placeholder tokens of
`quote_spanned!(span => \x7b\x7d)` — a single empty brace group — to the
shared tag-list parser; a name-value `tag` attribute would be rejected
with a dedicated message (that match arm exists in the source). -/
def parse_fn_attrs : List Attribute → Except Error (List String × List Attribute)
  | [] => .ok ([], [])
  | attr :: rest =>
    if is_test_tag_attr attr then
      match
        (match attr.meta with
         | .path _ => Except.ok [Tok.braces]
         | .list _ ts => Except.ok ts
         | .nameValue _ _ =>
           Except.error
             (⟨"encountered unexpected argument to `tag` attribute; expected list of tags"⟩ :
               Error)) with
      | .error e => .error e
      | .ok tokens =>
        match parse_tags tokens with
        | .error e => .error e
        | .ok attr_tags =>
          match parse_fn_attrs rest with
          | .error e => .error e
          | .ok (tags, passthrough) => .ok (attr_tags ++ tags, passthrough)
    else
      match parse_fn_attrs rest with
      | .error e => .error e
      | .ok (tags, passthrough) => .ok (tags, attr :: passthrough)

/-- `rewrite_test_attrs` from `src/lib.rs`: for every attribute whose path
is exactly the single unqualified identifier `test` (no leading `::`),
prefix a `self` segment, uniformly for all three meta shapes. -/
def rewrite_test_attrs (attrs : List Attribute) : List Attribute :=
  attrs.map fun attr =>
    let path :=
      match attr.meta with
      | .path p => p
      | .list p _ => p
      | .nameValue p _ => p
    if path.leading_colon = false && path.segments.length == 1
        && path.segments.getD 0 "" == "test" then
      let path2 : Path := { path with segments := "self" :: path.segments }
      { attr with
        meta :=
          match attr.meta with
          | .path _ => .path path2
          | .list _ ts => .list path2 ts
          | .nameValue _ v => .nameValue path2 v }
    else
      attr

/-- One iteration of the nesting loop in `try_tag` (`for tag in
tags.into_iter().rev()`): extend the alias-import path on the left and
wrap the current items in `pub mod #tag \x7b use super::*; ... \x7d`. -/
def nest_step (acc : Option (List String) × List Item) (tag : String) :
    Option (List String) × List Item :=
  ( some (match acc.1 with
          | some i => tag :: i
          | none => [tag]),
    [Item.pubMod [] tag (Item.useSuperGlob :: acc.2)] )

/-- `try_tag` from `src/lib.rs`. The `item` argument is the already
parsed `ItemFn` (the `ItemFn::parse.parse(item)?` step; parsing of
arbitrary Rust function syntax is outside the embedding). -/
def try_tag (attrs : List Tok) (item : ItemFn) : Except Error (List Item) := do
  let tags ← parse_tags attrs
  let (more_tags, attrs2) ← parse_fn_attrs item.attrs
  let tags := tags ++ more_tags
  let attrs2 := rewrite_test_attrs attrs2
  let test_name := item.sig.ident
  let sig : Sig := { item.sig with ident := "test" }
  let result : List Item := [Item.fn attrs2 sig item.block]
  let (imp, result) := tags.reverse.foldl nest_step (none, result)
  .ok [ Item.usePrelude,
        Item.useAlias item.vis imp test_name,
        Item.pubMod ["doc(hidden)", "allow(ambiguous_panic_imports)"] test_name
          (Item.useSuperGlob :: result) ]

/-- The `tag` entry point from `src/lib.rs`:
`try_tag(...).unwrap_or_else(Error::into_compile_error)`. -/
def tag (attrs : List Tok) (item : ItemFn) : Output :=
  match try_tag attrs item with
  | .ok result => .items result
  | .error err => .compileError err.msg

/-- Test-runner event, from `tests/common.rs` (`enum Event`). -/
inductive Event where
  /-- A `started` event. -/
  | started
  /-- An `ok` event. -/
  | ok
  /-- An `ignored` event. -/
  | ignored
  /-- A `failed` event. -/
  | failed
deriving DecidableEq

/-- One parsed JSON line, from `tests/common.rs` (`enum TestLine`). -/
inductive TestLine where
  /-- A `type: "suite"` line (contents ignored). -/
  | suite
  /-- A `type: "test"` line with its name and event. -/
  | test (name : String) (event : Event)
deriving DecidableEq

/-- The loop body of `parse_test_output` from `tests/common.rs`,
accumulating the `HashSet` of passing test names (modelled as a
duplicate-free list). -/
def parse_test_output_go (tests : List String) :
    List TestLine → Except Error (List String)
  | [] => .ok tests
  | line :: rest =>
    match line with
    | .test name .ok =>
      parse_test_output_go (if name ∈ tests then tests else tests ++ [name]) rest
    | .test name .failed => .error ⟨"test `" ++ name ++ "` ran unsuccessfully"⟩
    | .test name .ignored => .error ⟨"test `" ++ name ++ "` was ignored"⟩
    | _ => parse_test_output_go tests rest

/-- `parse_test_output` from `tests/common.rs`, over already decoded JSON
lines. -/
def parse_test_output (output : List TestLine) : Except Error (List String) :=
  parse_test_output_go [] output

/-- The path part of a meta item (every shape carries one). -/
def metaPath : Meta → Path
  | .path p => p
  | .list p _ => p
  | .nameValue p _ => p

/-- Replace the path of a meta item, keeping its shape and payload. -/
def withPath : Meta → Path → Meta
  | .path _, p => .path p
  | .list _ ts, p => .list p ts
  | .nameValue _ v, p => .nameValue p v

/-- Whether a meta item is a bare path or a parenthesised list (the two
shapes `is_test_tag_attr` considers). -/
def is_path_or_list : Meta → Bool
  | .path _ => true
  | .list _ _ => true
  | .nameValue _ _ => false

/-- The path condition of claim C7, stated from the spec's words: the
bare single identifier `tag` with no leading path-root colon, or exactly
the two segments `test_tag::tag` (leading colon allowed). -/
def tag_path_claim (p : Path) : Prop :=
  (p.leading_colon = false ∧ p.segments = ["tag"]) ∨ p.segments = ["test_tag", "tag"]

instance (p : Path) : Decidable (tag_path_claim p) := by
  unfold tag_path_claim; infer_instance

/-- The token list `parse_fn_attrs` hands to `parse_tags` for a
classified attribute (the name-value arm is never classified). -/
def attr_arg_tokens (attr : Attribute) : List Tok :=
  match attr.meta with
  | .path _ => [Tok.braces]
  | .list _ ts => ts
  | .nameValue _ _ => []

/-- The nested-module chain built by `try_tag`'s loop: one `pub mod` per
tag, outermost first, each with a glob import of its parent scope. -/
def specNest : List String → List Item → List Item
  | [], inner => inner
  | t :: ts, inner => [Item.pubMod [] t (Item.useSuperGlob :: specNest ts inner)]

/-- The token stream of a comma-separated tag list (no trailing comma). -/
def tag_toks : List String → List Tok
  | [] => []
  | [t] => [Tok.ident t]
  | t :: ts => Tok.ident t :: Tok.comma :: tag_toks ts

/-- A line on which `parse_test_output` bails: a test event `failed` or
`ignored`. -/
def is_bad_line : TestLine → Bool
  | .test _ .failed => true
  | .test _ .ignored => true
  | _ => false

theorem parse_tags_ne_nil (ts : List Tok) (l : List String)
    (h : parse_tags ts = .ok l) : l ≠ [] := by
  unfold parse_tags at h
  cases hp : parse_terminated ts with
  | error e => rw [hp] at h; simp [Bind.bind, Except.bind] at h
  | ok tags =>
    rw [hp] at h
    by_cases he : tags.isEmpty
    · simp [Bind.bind, Except.bind, he] at h
    · simp [Bind.bind, Except.bind, he] at h
      subst h
      simpa [List.isEmpty_iff] using he

theorem nest_fold (tags : List String) (inner : List Item) :
    tags.reverse.foldl nest_step (none, inner) =
      ((if tags.isEmpty then none else some tags), specNest tags inner) := by
  induction tags with
  | nil => simp [specNest]
  | cons t ts ih =>
    rw [List.reverse_cons, List.foldl_append, ih]
    cases ts with
    | nil => simp [nest_step, specNest]
    | cons x xs => simp [nest_step, specNest]

theorem try_tag_shape (d : List Tok) (item : ItemFn) (dtags mtags : List String)
    (pt : List Attribute)
    (h1 : parse_tags d = .ok dtags)
    (h2 : parse_fn_attrs item.attrs = .ok (mtags, pt)) :
    try_tag d item = .ok
      [ Item.usePrelude,
        Item.useAlias item.vis (some (dtags ++ mtags)) item.sig.ident,
        Item.pubMod ["doc(hidden)", "allow(ambiguous_panic_imports)"] item.sig.ident
          (Item.useSuperGlob ::
            specNest (dtags ++ mtags)
              [Item.fn (rewrite_test_attrs pt) { item.sig with ident := "test" }
                item.block]) ] := by
  have hne : dtags ≠ [] := parse_tags_ne_nil d dtags h1
  have hemp : (dtags ++ mtags).isEmpty = false := by
    cases dtags with
    | nil => exact absurd rfl hne
    | cons a l => rfl
  unfold try_tag
  rw [h1, h2]
  simp only [Bind.bind, Except.bind, nest_fold, hemp]
  rfl

theorem parse_fn_attrs_ok (attrs : List Attribute) (tags : List String)
    (pt : List Attribute) (h : parse_fn_attrs attrs = .ok (tags, pt)) :
    pt = attrs.filter (fun a => !is_test_tag_attr a) ∧
    ∀ lists : List (List String),
      (attrs.filter (fun a => is_test_tag_attr a)).map
          (fun a => parse_tags (attr_arg_tokens a)) = lists.map Except.ok →
      tags = lists.flatten := by
  induction attrs generalizing tags pt with
  | nil =>
    unfold parse_fn_attrs at h
    injection h with h
    injection h with h1 h2
    subst h1; subst h2
    refine ⟨rfl, ?_⟩
    intro lists hl
    cases lists with
    | nil => rfl
    | cons x xs => simp at hl
  | cons a rest ih =>
    unfold parse_fn_attrs at h
    by_cases hc : is_test_tag_attr a
    · rw [if_pos hc] at h
      cases hm : a.meta with
      | nameValue p v =>
        exfalso
        have : is_test_tag_attr a = false := by
          unfold is_test_tag_attr
          rw [hm]
        rw [this] at hc
        exact Bool.false_ne_true hc
      | path p =>
        rw [hm] at h
        dsimp only at h
        cases hpt : parse_tags [Tok.braces] with
        | error e => rw [hpt] at h; exact absurd h (by simp)
        | ok l =>
          rw [hpt] at h
          cases hr : parse_fn_attrs rest with
          | error e => rw [hr] at h; exact absurd h (by simp)
          | ok tp =>
            obtain ⟨t2, p2⟩ := tp
            rw [hr] at h
            injection h with h
            injection h with h1 h2
            subst h1; subst h2
            obtain ⟨ihp, iht⟩ := ih t2 p2 hr
            refine ⟨by simp [hc, ihp], ?_⟩
            intro lists hl
            rw [List.filter_cons_of_pos (by simp [hc])] at hl
            simp only [List.map_cons] at hl
            cases lists with
            | nil => simp at hl
            | cons l0 ls =>
              simp only [List.map_cons, List.cons_eq_cons] at hl
              obtain ⟨hl0, hls⟩ := hl
              have hl' : l = l0 := by
                have : parse_tags (attr_arg_tokens a) = Except.ok l0 := hl0
                rw [attr_arg_tokens, hm] at this
                rw [hpt] at this
                injection this
              subst hl'
              rw [List.flatten_cons]
              rw [iht ls hls]
      | list p ts =>
        rw [hm] at h
        dsimp only at h
        cases hpt : parse_tags ts with
        | error e => rw [hpt] at h; exact absurd h (by simp)
        | ok l =>
          rw [hpt] at h
          cases hr : parse_fn_attrs rest with
          | error e => rw [hr] at h; exact absurd h (by simp)
          | ok tp =>
            obtain ⟨t2, p2⟩ := tp
            rw [hr] at h
            injection h with h
            injection h with h1 h2
            subst h1; subst h2
            obtain ⟨ihp, iht⟩ := ih t2 p2 hr
            refine ⟨by simp [hc, ihp], ?_⟩
            intro lists hl
            rw [List.filter_cons_of_pos (by simp [hc])] at hl
            simp only [List.map_cons] at hl
            cases lists with
            | nil => simp at hl
            | cons l0 ls =>
              simp only [List.map_cons, List.cons_eq_cons] at hl
              obtain ⟨hl0, hls⟩ := hl
              have hl' : l = l0 := by
                have : parse_tags (attr_arg_tokens a) = Except.ok l0 := hl0
                rw [attr_arg_tokens, hm] at this
                rw [hpt] at this
                injection this
              subst hl'
              rw [List.flatten_cons]
              rw [iht ls hls]
    · rw [if_neg hc] at h
      cases hr : parse_fn_attrs rest with
      | error e => rw [hr] at h; exact absurd h (by simp)
      | ok tp =>
        obtain ⟨t2, p2⟩ := tp
        rw [hr] at h
        injection h with h
        injection h with h1 h2
        subst h1; subst h2
        obtain ⟨ihp, iht⟩ := ih t2 p2 hr
        constructor
        · rw [List.filter_cons_of_pos (by simp [hc])]
          rw [ihp]
        · intro lists hl
          rw [List.filter_cons_of_neg (by simp [hc])] at hl
          exact iht lists hl

/-- C1: for every non-empty tag sequence `[t1..tn]` (direct tags followed
by tags merged from the function's own tag attributes) and every
annotated function named `f`, the rewritten unit contains a top-level
alias declaration with the original name `f` and the function's original
visibility, whose target resolves through the doc-hidden module `f` and
the import path `t1::...::tn` to `test` — i.e. the fully qualified name
seen by external tooling is `f::t1::...::tn::test` — regardless of how
the tags were split between the direct argument list and merged
attribute declarations. -/
theorem alias_original_name_full_path (d : List Tok) (item : ItemFn)
    (dtags mtags : List String) (pt : List Attribute)
    (h1 : parse_tags d = .ok dtags)
    (h2 : parse_fn_attrs item.attrs = .ok (mtags, pt)) :
    ∃ body : List Item,
      try_tag d item = .ok
        [ Item.usePrelude,
          Item.useAlias item.vis (some (dtags ++ mtags)) item.sig.ident,
          Item.pubMod ["doc(hidden)", "allow(ambiguous_panic_imports)"]
            item.sig.ident body ] ∧
      dtags ++ mtags ≠ [] := by
  refine ⟨_, try_tag_shape d item dtags mtags pt h1 h2, ?_⟩
  have hne := parse_tags_ne_nil d dtags h1
  cases dtags with
  | nil => exact absurd rfl hne
  | cons a l => simp

/-- Witness for C1 at a concrete input: `#[tag(t1)]` on a function `f`
that also carries `#[test_tag::tag(t2)]` yields the alias
`pub use f::t1::t2::test as f`. -/
theorem alias_original_name_full_path_witness :
    ∃ body : List Item,
      try_tag [Tok.ident "t1"]
          ⟨[⟨Meta.list ⟨false, ["test_tag", "tag"]⟩ [Tok.ident "t2"]⟩], "pub",
            ⟨"f", "()"⟩, "body0"⟩ = .ok
        [ Item.usePrelude,
          Item.useAlias "pub" (some (["t1"] ++ ["t2"])) "f",
          Item.pubMod ["doc(hidden)", "allow(ambiguous_panic_imports)"] "f" body ] ∧
      ["t1"] ++ ["t2"] ≠ ([] : List String) :=
  alias_original_name_full_path [Tok.ident "t1"]
    ⟨[⟨Meta.list ⟨false, ["test_tag", "tag"]⟩ [Tok.ident "t2"]⟩], "pub",
      ⟨"f", "()"⟩, "body0"⟩ ["t1"] ["t2"] [] rfl rfl

/-- C8: for the merged tag sequence `[t1..tn]`, the emitted structure is
the function renamed to the literal leaf name `test` and made `pub`,
wrapped in a module named `tn`, ..., out to `t1` (so nesting read
outer-to-inner equals the tag order), each module being `pub` and
starting with a glob import of its parent scope, the whole chain wrapped
in a doc-hidden module named after the original function. -/
theorem nested_module_structure (d : List Tok) (item : ItemFn)
    (dtags mtags : List String) (pt : List Attribute)
    (h1 : parse_tags d = .ok dtags)
    (h2 : parse_fn_attrs item.attrs = .ok (mtags, pt)) :
    try_tag d item = .ok
      [ Item.usePrelude,
        Item.useAlias item.vis (some (dtags ++ mtags)) item.sig.ident,
        Item.pubMod ["doc(hidden)", "allow(ambiguous_panic_imports)"] item.sig.ident
          (Item.useSuperGlob ::
            specNest (dtags ++ mtags)
              [Item.fn (rewrite_test_attrs pt) { item.sig with ident := "test" }
                item.block]) ] :=
  try_tag_shape d item dtags mtags pt h1 h2

/-- Witness for C8 at a concrete input: `#[tag(t1, t2)]` on `f` yields
`mod f { mod t1 { mod t2 { fn test } } }` with glob imports. -/
theorem nested_module_structure_witness :
    try_tag [Tok.ident "t1", Tok.comma, Tok.ident "t2"]
        ⟨[], "pub", ⟨"f", "()"⟩, "body0"⟩ = .ok
      [ Item.usePrelude,
        Item.useAlias "pub" (some (["t1", "t2"] ++ [])) "f",
        Item.pubMod ["doc(hidden)", "allow(ambiguous_panic_imports)"] "f"
          (Item.useSuperGlob ::
            specNest (["t1", "t2"] ++ [])
              [Item.fn (rewrite_test_attrs []) ⟨"test", "()"⟩ "body0"]) ] :=
  nested_module_structure [Tok.ident "t1", Tok.comma, Tok.ident "t2"]
    ⟨[], "pub", ⟨"f", "()"⟩, "body0"⟩ ["t1", "t2"] [] [] rfl rfl

/-- C2: the merged tag sequence is order- and duplicate-preserving: the
direct tags come first, then the tags of each classified tag attribute in
attribute order, each attribute's own list kept left-to-right, with no
deduplication; the sequence used for the emitted nesting and alias is
exactly this concatenation. -/
theorem merged_tag_order (d : List Tok) (item : ItemFn)
    (dtags mtags : List String) (pt : List Attribute) (lists : List (List String))
    (h1 : parse_tags d = .ok dtags)
    (h2 : parse_fn_attrs item.attrs = .ok (mtags, pt))
    (h3 : (item.attrs.filter (fun a => is_test_tag_attr a)).map
        (fun a => parse_tags (attr_arg_tokens a)) = lists.map Except.ok) :
    mtags = lists.flatten ∧
    ∃ m : Item,
      try_tag d item = .ok
        [ Item.usePrelude,
          Item.useAlias item.vis (some (dtags ++ lists.flatten)) item.sig.ident,
          m ] := by
  have hfl := (parse_fn_attrs_ok item.attrs mtags pt h2).2 lists h3
  subst hfl
  exact ⟨rfl, _, try_tag_shape d item dtags lists.flatten pt h1 h2⟩

/-- Witness for C2 at the spec's example: `#[tag(a, b)]` with a further
`#[test_tag::tag(c)]` on the function yields the sequence
`[a, b] ++ [c] = [a, b, c]`, not `[c, a, b]`. -/
theorem merged_tag_order_witness :
    (["c"] : List String) = [["c"]].flatten ∧
    ∃ m : Item,
      try_tag [Tok.ident "a", Tok.comma, Tok.ident "b"]
          ⟨[⟨Meta.list ⟨false, ["tag"]⟩ [Tok.ident "c"]⟩], "", ⟨"f", ""⟩, ""⟩ = .ok
        [ Item.usePrelude,
          Item.useAlias "" (some (["a", "b"] ++ [["c"]].flatten)) "f",
          m ] :=
  merged_tag_order [Tok.ident "a", Tok.comma, Tok.ident "b"]
    ⟨[⟨Meta.list ⟨false, ["tag"]⟩ [Tok.ident "c"]⟩], "", ⟨"f", ""⟩, ""⟩
    ["a", "b"] ["c"] [] [["c"]] rfl rfl rfl

/-- C4: every attribute retained on the rewritten function whose path is
exactly the single unqualified identifier `test` (one segment, no leading
path-root colon) has a `self` segment prefixed to its path, uniformly for
bare-path, list and key-value shapes; all other attributes — including
multi-segment paths such as `tokio::test` and paths with a leading
colon — are left unchanged, in order. -/
theorem marker_attr_rewrite (attrs : List Attribute) :
    rewrite_test_attrs attrs = attrs.map fun attr =>
      if (metaPath attr.meta).leading_colon = false ∧
          (metaPath attr.meta).segments = ["test"] then
        ⟨withPath attr.meta ⟨false, ["self", "test"]⟩⟩
      else attr := by
  unfold rewrite_test_attrs
  apply List.map_congr_left
  rintro ⟨m⟩ -
  rcases m with ⟨lc, segs⟩ | ⟨⟨lc, segs⟩, ts⟩ | ⟨⟨lc, segs⟩, v⟩ <;>
    cases lc <;>
      rcases segs with _ | ⟨x, _ | ⟨y, t⟩⟩ <;>
        simp [metaPath, withPath] <;>
          split <;> simp_all

/-- C5: an empty direct tag argument list is a hard error whose
diagnostic message starts with "at least one tag is required", and the
macro emits a compile-error marker in place of the rewritten unit. -/
theorem empty_tag_list_error (item : ItemFn) :
    tag [] item =
      .compileError ("at least one tag is required" ++ ": #[test_tag::tag(<tags...>)]") :=
  rfl

theorem parse_terminated_tag_toks (tags : List String) (h : tags ≠ []) :
    parse_terminated (tag_toks tags) = .ok tags ∧
    parse_terminated (tag_toks tags ++ [Tok.comma]) = .ok tags := by
  induction tags with
  | nil => exact absurd rfl h
  | cons t ts ih =>
    cases ts with
    | nil => exact ⟨rfl, rfl⟩
    | cons u us =>
      obtain ⟨ih1, ih2⟩ := ih (by simp)
      constructor
      · show parse_terminated (Tok.ident t :: Tok.comma :: tag_toks (u :: us)) = _
        unfold parse_terminated
        simp [ih1]
      · show parse_terminated
            (Tok.ident t :: Tok.comma :: (tag_toks (u :: us) ++ [Tok.comma])) = _
        unfold parse_terminated
        simp [ih2]

/-- C10: for every non-empty sequence of tag identifiers, parsing the
comma-separated list with a trailing comma after the last identifier
yields the same tag sequence as parsing it without one, and is not an
error. -/
theorem trailing_comma_same (tags : List String) (h : tags ≠ []) :
    parse_tags (tag_toks tags ++ [Tok.comma]) = .ok tags ∧
    parse_tags (tag_toks tags) = .ok tags := by
  obtain ⟨h1, h2⟩ := parse_terminated_tag_toks tags h
  have he : tags.isEmpty = false := by
    cases tags with
    | nil => exact absurd rfl h
    | cons a l => rfl
  unfold parse_tags
  rw [h1, h2]
  simp [Bind.bind, Except.bind, he]

/-- Witness for C10 at the fixture input `tag(tag3,)`. -/
theorem trailing_comma_same_witness :
    parse_tags (tag_toks ["tag3"] ++ [Tok.comma]) = .ok ["tag3"] ∧
    parse_tags (tag_toks ["tag3"]) = .ok ["tag3"] :=
  trailing_comma_same ["tag3"] (by simp)

/-- Counterexample to C6 as stated: with direct tag `tag1` and a bare
`#[test_tag::tag]` on the function, the emitted diagnostic is the tag
parser's "expected identifier" — not the "at least one tag is required"
message the claim promises (the latter is not even a prefix of it). -/
theorem bare_tag_attr_counterexample :
    tag [Tok.ident "tag1"]
        ⟨[⟨Meta.path ⟨false, ["test_tag", "tag"]⟩⟩], "", ⟨"f", ""⟩, ""⟩ =
      .compileError "expected identifier" ∧
    ("at least one tag is required".data.isPrefixOf "expected identifier".data) = false :=
  ⟨rfl, by decide⟩

/-- C6 (amended): a tag-declaration attribute with no argument list
contributes no tags of its own and is handed to the shared tag-list
parser — but with a single empty brace group as the placeholder token
stream, so the expansion always fails with the parser's
"expected identifier" error rather than the empty-tag-list message, even
when other attributes already supplied tags. -/
theorem bare_tag_attr_expected_identifier (p : Path) (rest : List Attribute)
    (d : List Tok) (item : ItemFn) (dtags : List String)
    (h : is_test_tag_attr ⟨Meta.path p⟩ = true)
    (hd : parse_tags d = .ok dtags)
    (hi : item.attrs = ⟨Meta.path p⟩ :: rest) :
    parse_fn_attrs item.attrs = .error ⟨"expected identifier"⟩ ∧
    tag d item = .compileError "expected identifier" := by
  have hp : parse_fn_attrs (⟨Meta.path p⟩ :: rest) = .error ⟨"expected identifier"⟩ := by
    unfold parse_fn_attrs
    rw [if_pos h]
    rfl
  refine ⟨by rw [hi]; exact hp, ?_⟩
  unfold tag try_tag
  rw [hd]
  simp [Bind.bind, Except.bind, hi, hp]

/-- Witness for the amended C6: `#[test_tag::tag]` on a function that
already has the direct tag `tag1`. -/
theorem bare_tag_attr_expected_identifier_witness :
    parse_fn_attrs [⟨Meta.path ⟨false, ["test_tag", "tag"]⟩⟩] =
      .error ⟨"expected identifier"⟩ ∧
    tag [Tok.ident "tag1"]
        ⟨[⟨Meta.path ⟨false, ["test_tag", "tag"]⟩⟩], "", ⟨"g", ""⟩, ""⟩ =
      .compileError "expected identifier" :=
  bare_tag_attr_expected_identifier ⟨false, ["test_tag", "tag"]⟩ [] [Tok.ident "tag1"]
    ⟨[⟨Meta.path ⟨false, ["test_tag", "tag"]⟩⟩], "", ⟨"g", ""⟩, ""⟩ ["tag1"] rfl rfl rfl

/-- Counterexample to C3 as stated: `#[test_tag::tag = "v"]`, a
name-value meta item with the tag path, is not rejected — the expansion
succeeds and the attribute is silently passed through onto the inner
function. -/
theorem name_value_tag_attr_counterexample :
    try_tag [Tok.ident "a"]
        ⟨[⟨Meta.nameValue ⟨false, ["test_tag", "tag"]⟩ "v"⟩], "pub", ⟨"f", ""⟩, "b"⟩ = .ok
      [ Item.usePrelude,
        Item.useAlias "pub" (some ["a"]) "f",
        Item.pubMod ["doc(hidden)", "allow(ambiguous_panic_imports)"] "f"
          [ Item.useSuperGlob,
            Item.pubMod [] "a"
              [ Item.useSuperGlob,
                Item.fn [⟨Meta.nameValue ⟨false, ["test_tag", "tag"]⟩ "v"⟩]
                  ⟨"test", ""⟩ "b" ] ] ] :=
  rfl

/-- C3 (amended): a key-value (name-value) shaped attribute is never
classified as a tag declaration — even when its path is
`tag`/`test_tag::tag` — and is appended unchanged to the pass-through
attributes, so the "encountered unexpected argument to `tag` attribute"
rejection arm is unreachable; a classified list-shaped tag attribute
whose tokens are key-value, such as `tag(k = "v")`, is instead rejected
by the shared tag-list parser with an "expected `,`" error. -/
theorem name_value_tag_attr_behaviour (p : Path) (v : String)
    (rest : List Attribute) (tags : List String) (pt : List Attribute)
    (k s : String)
    (h : parse_fn_attrs rest = .ok (tags, pt)) :
    is_test_tag_attr ⟨Meta.nameValue p v⟩ = false ∧
    parse_fn_attrs (⟨Meta.nameValue p v⟩ :: rest) =
      .ok (tags, ⟨Meta.nameValue p v⟩ :: pt) ∧
    parse_tags [Tok.ident k, Tok.eq, Tok.strLit s] = .error ⟨"expected `,`"⟩ ∧
    parse_fn_attrs
        (⟨Meta.list ⟨false, ["tag"]⟩ [Tok.ident k, Tok.eq, Tok.strLit s]⟩ :: rest) =
      .error ⟨"expected `,`"⟩ := by
  have hnv : is_test_tag_attr ⟨Meta.nameValue p v⟩ = false := rfl
  refine ⟨hnv, ?_, rfl, rfl⟩
  unfold parse_fn_attrs
  rw [if_neg (by simp [hnv]), h]

/-- Witness for the amended C3 at concrete inputs. -/
theorem name_value_tag_attr_behaviour_witness :
    is_test_tag_attr ⟨Meta.nameValue ⟨false, ["test_tag", "tag"]⟩ "v"⟩ = false ∧
    parse_fn_attrs [⟨Meta.nameValue ⟨false, ["test_tag", "tag"]⟩ "v"⟩] =
      .ok ([], [⟨Meta.nameValue ⟨false, ["test_tag", "tag"]⟩ "v"⟩]) ∧
    parse_tags [Tok.ident "k", Tok.eq, Tok.strLit "s"] = .error ⟨"expected `,`"⟩ ∧
    parse_fn_attrs
        [⟨Meta.list ⟨false, ["tag"]⟩ [Tok.ident "k", Tok.eq, Tok.strLit "s"]⟩] =
      .error ⟨"expected `,`"⟩ :=
  name_value_tag_attr_behaviour ⟨false, ["test_tag", "tag"]⟩ "v" [] [] [] "k" "s" rfl

theorem is_test_tag_attr_path_iff (p : Path) :
    is_test_tag_attr ⟨Meta.path p⟩ = true ↔ tag_path_claim p := by
  obtain ⟨lc, segs⟩ := p
  unfold is_test_tag_attr tag_path_claim
  cases lc <;>
    rcases segs with _ | ⟨a, _ | ⟨b, _ | ⟨c, t⟩⟩⟩ <;>
      simp [List.getD, List.zip_cons_cons, List.all_cons]

/-- Counterexample to C7 as stated: `#[test_tag::tag = "v"]` has the
matching two-segment path, yet it is not classified as a tag
declaration, so the claimed "if and only if" fails. -/
theorem classification_counterexample :
    ¬ (is_test_tag_attr ⟨Meta.nameValue ⟨false, ["test_tag", "tag"]⟩ "v"⟩ = true ↔
        tag_path_claim ⟨false, ["test_tag", "tag"]⟩) := by
  decide

/-- C7 (amended): an attribute is classified as a tag declaration iff it
is a bare path or a parenthesised list (never a key-value form) whose
path is the bare single identifier `tag` with no leading path-root
colon, or exactly the two segments `test_tag::tag` with or without a
leading colon; every non-classified attribute is appended unchanged to
the pass-through list, preserving relative order. -/
theorem classification_characterization (a : Attribute) (attrs : List Attribute)
    (tags : List String) (pt : List Attribute)
    (h : parse_fn_attrs attrs = .ok (tags, pt)) :
    (is_test_tag_attr a = true ↔
      (is_path_or_list a.meta = true ∧ tag_path_claim (metaPath a.meta))) ∧
    pt = attrs.filter (fun x => !is_test_tag_attr x) := by
  refine ⟨?_, (parse_fn_attrs_ok attrs tags pt h).1⟩
  obtain ⟨m⟩ := a
  cases m with
  | nameValue p v => simp [is_test_tag_attr, is_path_or_list]
  | path p => simpa [is_path_or_list, metaPath] using is_test_tag_attr_path_iff p
  | list p ts =>
    have he : is_test_tag_attr ⟨Meta.list p ts⟩ = is_test_tag_attr ⟨Meta.path p⟩ := rfl
    rw [he]
    simpa [is_path_or_list, metaPath] using is_test_tag_attr_path_iff p

/-- Witness for the amended C7 at concrete inputs: a `rustfmt::skip`
attribute is not classified and is passed through. -/
theorem classification_characterization_witness :
    (is_test_tag_attr ⟨Meta.path ⟨false, ["rustfmt", "skip"]⟩⟩ = true ↔
      (is_path_or_list (Meta.path ⟨false, ["rustfmt", "skip"]⟩) = true ∧
        tag_path_claim (metaPath (Meta.path ⟨false, ["rustfmt", "skip"]⟩)))) ∧
    [⟨Meta.path ⟨false, ["rustfmt", "skip"]⟩⟩] =
      List.filter (fun x => !is_test_tag_attr x)
        [(⟨Meta.path ⟨false, ["rustfmt", "skip"]⟩⟩ : Attribute)] :=
  classification_characterization ⟨Meta.path ⟨false, ["rustfmt", "skip"]⟩⟩
    [⟨Meta.path ⟨false, ["rustfmt", "skip"]⟩⟩] []
    [⟨Meta.path ⟨false, ["rustfmt", "skip"]⟩⟩] rfl

theorem parse_test_output_go_ok (lines : List TestLine) (acc : List String)
    (h : lines.all (fun l => !is_bad_line l) = true) :
    ∃ r, parse_test_output_go acc lines = .ok r ∧
      ∀ s, s ∈ r ↔ (s ∈ acc ∨ TestLine.test s .ok ∈ lines) := by
  induction lines generalizing acc with
  | nil => exact ⟨acc, rfl, by simp⟩
  | cons line rest ih =>
    rw [List.all_cons, Bool.and_eq_true] at h
    obtain ⟨h1, h2⟩ := h
    cases line with
    | suite =>
      obtain ⟨r, hr, hm⟩ := ih acc h2
      refine ⟨r, hr, fun s => ?_⟩
      rw [hm s]
      simp
    | test name ev =>
      cases ev with
      | failed => simp [is_bad_line] at h1
      | ignored => simp [is_bad_line] at h1
      | started =>
        obtain ⟨r, hr, hm⟩ := ih acc h2
        refine ⟨r, hr, fun s => ?_⟩
        rw [hm s]
        simp
      | ok =>
        obtain ⟨r, hr, hm⟩ :=
          ih (if name ∈ acc then acc else acc ++ [name]) h2
        refine ⟨r, hr, fun s => ?_⟩
        rw [hm s]
        by_cases hn : name ∈ acc
        · rw [if_pos hn]
          constructor
          · rintro (hs | hs)
            · exact Or.inl hs
            · exact Or.inr (List.mem_cons_of_mem _ hs)
          · rintro (hs | hs)
            · exact Or.inl hs
            · rcases List.mem_cons.1 hs with he | ht
              · injection he with he1 he2
                subst he1
                exact Or.inl hn
              · exact Or.inr ht
        · rw [if_neg hn]
          constructor
          · rintro (hs | hs)
            · rcases List.mem_append.1 hs with ha | ha
              · exact Or.inl ha
              · rcases List.mem_singleton.1 ha with rfl
                exact Or.inr (List.mem_cons_self _ _)
            · exact Or.inr (List.mem_cons_of_mem _ hs)
          · rintro (hs | hs)
            · exact Or.inl (List.mem_append.2 (Or.inl hs))
            · rcases List.mem_cons.1 hs with he | ht
              · injection he with he1 he2
                subst he1
                exact Or.inl (List.mem_append.2 (Or.inr (List.mem_singleton.2 rfl)))
              · exact Or.inr ht

theorem parse_test_output_go_bad (lines : List TestLine) (acc : List String)
    (h : lines.all (fun l => !is_bad_line l) = false) :
    ∃ n,
      (TestLine.test n .failed ∈ lines ∧
        parse_test_output_go acc lines =
          .error ⟨"test `" ++ n ++ "` ran unsuccessfully"⟩) ∨
      (TestLine.test n .ignored ∈ lines ∧
        parse_test_output_go acc lines = .error ⟨"test `" ++ n ++ "` was ignored"⟩) := by
  induction lines generalizing acc with
  | nil => simp at h
  | cons line rest ih =>
    rw [List.all_cons, Bool.and_eq_false_iff] at h
    cases line with
    | suite =>
      have h2 : rest.all (fun l => !is_bad_line l) = false := by
        rcases h with h | h
        · simp [is_bad_line] at h
        · exact h
      obtain ⟨n, hn⟩ := ih acc h2
      refine ⟨n, ?_⟩
      rcases hn with ⟨hm, he⟩ | ⟨hm, he⟩
      · exact Or.inl ⟨List.mem_cons_of_mem _ hm, he⟩
      · exact Or.inr ⟨List.mem_cons_of_mem _ hm, he⟩
    | test name ev =>
      cases ev with
      | failed =>
        exact ⟨name, Or.inl ⟨List.mem_cons_self _ _, rfl⟩⟩
      | ignored =>
        exact ⟨name, Or.inr ⟨List.mem_cons_self _ _, rfl⟩⟩
      | started =>
        have h2 : rest.all (fun l => !is_bad_line l) = false := by
          rcases h with h | h
          · simp [is_bad_line] at h
          · exact h
        obtain ⟨n, hn⟩ := ih acc h2
        refine ⟨n, ?_⟩
        rcases hn with ⟨hm, he⟩ | ⟨hm, he⟩
        · exact Or.inl ⟨List.mem_cons_of_mem _ hm, he⟩
        · exact Or.inr ⟨List.mem_cons_of_mem _ hm, he⟩
      | ok =>
        have h2 : rest.all (fun l => !is_bad_line l) = false := by
          rcases h with h | h
          · simp [is_bad_line] at h
          · exact h
        obtain ⟨n, hn⟩ := ih (if name ∈ acc then acc else acc ++ [name]) h2
        refine ⟨n, ?_⟩
        rcases hn with ⟨hm, he⟩ | ⟨hm, he⟩
        · exact Or.inl ⟨List.mem_cons_of_mem _ hm, he⟩
        · exact Or.inr ⟨List.mem_cons_of_mem _ hm, he⟩

/-- C9: `parse_test_output` returns exactly the set of names of lines of
shape `\x7btype: "test", name, event: "ok"\x7d` when no test line
carries event `failed` or `ignored`; if some test line does, it returns
a hard error naming the offending test; `suite` lines and test `started`
events contribute nothing. -/
theorem parse_test_output_spec (lines : List TestLine) :
    (lines.all (fun l => !is_bad_line l) = true →
      ∃ r, parse_test_output lines = .ok r ∧
        ∀ s, s ∈ r ↔ TestLine.test s .ok ∈ lines) ∧
    (lines.all (fun l => !is_bad_line l) = false →
      ∃ n,
        (TestLine.test n .failed ∈ lines ∧
          parse_test_output lines = .error ⟨"test `" ++ n ++ "` ran unsuccessfully"⟩) ∨
        (TestLine.test n .ignored ∈ lines ∧
          parse_test_output lines = .error ⟨"test `" ++ n ++ "` was ignored"⟩)) := by
  constructor
  · intro h
    obtain ⟨r, hr, hm⟩ := parse_test_output_go_ok lines [] h
    refine ⟨r, hr, fun s => ?_⟩
    rw [hm s]
    simp
  · intro h
    exact parse_test_output_go_bad lines [] h

/-- Witness for C9 on a concrete event list: one suite line, one
`started` event and one `ok` event. -/
theorem parse_test_output_spec_witness :
    ∃ r,
      parse_test_output
          [TestLine.suite, TestLine.test "test1::tag1::test" .started,
            TestLine.test "test1::tag1::test" .ok] = .ok r ∧
      ∀ s, s ∈ r ↔ TestLine.test s .ok ∈
        [TestLine.suite, TestLine.test "test1::tag1::test" .started,
          TestLine.test "test1::tag1::test" .ok] :=
  (parse_test_output_spec
    [TestLine.suite, TestLine.test "test1::tag1::test" .started,
      TestLine.test "test1::tag1::test" .ok]).1 rfl

end TestTag
